import Mathlib

/-!
Shallow embedding of `src/src/components/ResumeBuilder.tsx` (a React resume
builder component).  The embedding models the component's form state
(`ResumeData`), its mutation handlers, the completion scorer, the
localStorage persistence adapter (serialization modelled as a JSON tree),
and the debounced autosave timer, and proves the specification claims
about them.
-/

namespace ResumeBuilder

/-- Personal info: the seven named string fields of the TypeScript object,
plus `extra`, an association list modelling any additional keys a computed
member expression `\x7b...prev.personalInfo, [field]: value\x7d` may add when
`field` is not one of the seven declared names (JavaScript objects accept
arbitrary keys at runtime). -/
structure PersonalInfo where
  name : String
  email : String
  phone : String
  location : String
  summary : String
  linkedin : String
  github : String
  extra : List (String × String)
deriving DecidableEq, Repr

/-- One experience entry: `{ title, company, duration, description }`. -/
structure Experience where
  title : String
  company : String
  duration : String
  description : String
deriving DecidableEq, Repr

/-- One education entry: `{ degree, institution, year, gpa }`. -/
structure Education where
  degree : String
  institution : String
  year : String
  gpa : String
deriving DecidableEq, Repr

/-- One project entry: `{ name, description, technologies, link }`. -/
structure Project where
  name : String
  description : String
  technologies : String
  link : String
deriving DecidableEq, Repr

/-- The form state `resumeData`.  `projects` is optional in the
`ResumeData` type (the code guards every access with `projects || []`),
so it is modelled as `Option (List Project)`: `none` is an absent
(`undefined`) list. -/
structure ResumeData where
  personalInfo : PersonalInfo
  experience : List Experience
  education : List Education
  skills : List String
  projects : Option (List Project)
deriving DecidableEq, Repr

/-- The initial `useState` value: every text field empty, every list empty
(`projects` present and empty). -/
def emptyResume : ResumeData :=
  { personalInfo :=
      { name := "", email := "", phone := "", location := "", summary := ""
        linkedin := "", github := "", extra := [] }
    experience := [], education := [], skills := [], projects := some [] }

/-- `resumeData.projects || []`: the guard the component applies at every
use of the optional list. -/
def projectsOrEmpty (r : ResumeData) : List Project :=
  r.projects.getD []

/-! ### Mutation operations (the `setResumeData` handlers) -/

/-- Overwrite key `k` in an association list (keeping its position) or
append it, mirroring `\x7b...obj, [k]: v\x7d` on a key not declared in the
type: an existing key keeps its place with the new value, a fresh key is
appended. -/
def setAssoc (l : List (String × String)) (k v : String) : List (String × String) :=
  if l.any (fun p => p.1 = k) then
    l.map (fun p => if p.1 = k then (k, v) else p)
  else
    l ++ [(k, v)]

/-- `handlePersonalInfoChange(field, value)`: spread `personalInfo` and set
the computed key `[field]`.  A `field` among the seven declared names
replaces that field; any other `field` lands in `extra` (JavaScript adds
the key to the object). -/
def handlePersonalInfoChange (r : ResumeData) (field value : String) : ResumeData :=
  { r with personalInfo :=
      if field = "name" then { r.personalInfo with name := value }
      else if field = "email" then { r.personalInfo with email := value }
      else if field = "phone" then { r.personalInfo with phone := value }
      else if field = "location" then { r.personalInfo with location := value }
      else if field = "summary" then { r.personalInfo with summary := value }
      else if field = "linkedin" then { r.personalInfo with linkedin := value }
      else if field = "github" then { r.personalInfo with github := value }
      else { r.personalInfo with extra := setAssoc r.personalInfo.extra field value } }

/-- `list.map((x, i) => f(i, x))` with explicit start index: JavaScript's
index-aware `Array.prototype.map`. -/
def mapIdxGo (f : Nat → α → β) (n : Nat) : List α → List β
  | [] => []
  | x :: xs => f n x :: mapIdxGo f (n + 1) xs

/-- `list.filter((x, i) => p(i, x))` with explicit start index: JavaScript's
index-aware `Array.prototype.filter`. -/
def filterIdxGo (p : Nat → α → Bool) (n : Nat) : List α → List α
  | [] => []
  | x :: xs => if p n x then x :: filterIdxGo p (n + 1) xs else filterIdxGo p (n + 1) xs

/-- The four field names `updateExperience` is called with. -/
inductive ExpField | title | company | duration | description
deriving DecidableEq, Repr

/-- `\x7b...exp, [field]: value\x7d` for an experience entry. -/
def setExpField (e : Experience) : ExpField → String → Experience
  | .title, v => { e with title := v }
  | .company, v => { e with company := v }
  | .duration, v => { e with duration := v }
  | .description, v => { e with description := v }

/-- Read one field of an experience entry. -/
def getExpField (e : Experience) : ExpField → String
  | .title => e.title
  | .company => e.company
  | .duration => e.duration
  | .description => e.description

/-- `addExperience()`: append one blank entry. -/
def addExperience (r : ResumeData) : ResumeData :=
  { r with experience :=
      r.experience ++ [{ title := "", company := "", duration := "", description := "" }] }

/-- `updateExperience(index, field, value)`:
`experience.map((exp, i) => i === index ? \x7b...exp, [field]: value\x7d : exp)`. -/
def updateExperience (r : ResumeData) (index : Nat) (field : ExpField) (value : String) : ResumeData :=
  { r with experience :=
      mapIdxGo (fun i exp => if i = index then setExpField exp field value else exp) 0 r.experience }

/-- `removeExperience(index)`: `experience.filter((_, i) => i !== index)`. -/
def removeExperience (r : ResumeData) (index : Nat) : ResumeData :=
  { r with experience := filterIdxGo (fun i _ => i ≠ index) 0 r.experience }

/-- The four field names `updateEducation` is called with. -/
inductive EduField | degree | institution | year | gpa
deriving DecidableEq, Repr

/-- `\x7b...edu, [field]: value\x7d` for an education entry. -/
def setEduField (e : Education) : EduField → String → Education
  | .degree, v => { e with degree := v }
  | .institution, v => { e with institution := v }
  | .year, v => { e with year := v }
  | .gpa, v => { e with gpa := v }

/-- `addEducation()`: append one blank entry. -/
def addEducation (r : ResumeData) : ResumeData :=
  { r with education :=
      r.education ++ [{ degree := "", institution := "", year := "", gpa := "" }] }

/-- `updateEducation(index, field, value)`. -/
def updateEducation (r : ResumeData) (index : Nat) (field : EduField) (value : String) : ResumeData :=
  { r with education :=
      mapIdxGo (fun i edu => if i = index then setEduField edu field value else edu) 0 r.education }

/-- `removeEducation(index)`. -/
def removeEducation (r : ResumeData) (index : Nat) : ResumeData :=
  { r with education := filterIdxGo (fun i _ => i ≠ index) 0 r.education }

/-- `String.prototype.trim()`: strip whitespace from both ends.  Written
as structural recursion over the character list so that the kernel can
evaluate it on concrete strings. -/
def jsTrim (s : String) : String :=
  ⟨((s.data.dropWhile Char.isWhitespace).reverse.dropWhile Char.isWhitespace).reverse⟩

/-- `addSkill(skill)`: if `skill.trim()` is truthy (non-empty) and
`!skills.includes(skill.trim())`, append `skill.trim()`; otherwise do
nothing. -/
def addSkill (r : ResumeData) (skill : String) : ResumeData :=
  if jsTrim skill ≠ "" ∧ ¬ r.skills.contains (jsTrim skill) then
    { r with skills := r.skills ++ [jsTrim skill] }
  else r

/-- `removeSkill(index)`: `skills.filter((_, i) => i !== index)`. -/
def removeSkill (r : ResumeData) (index : Nat) : ResumeData :=
  { r with skills := filterIdxGo (fun i _ => i ≠ index) 0 r.skills }

/-- The four field names `updateProject` is called with.  `name` would
shadow `Lean.Name`-style projections, so constructors carry a `p` prefix
while still denoting the source keys name/description/technologies/link. -/
inductive ProjField | pname | pdescription | ptechnologies | plink
deriving DecidableEq, Repr

/-- `\x7b...project, [field]: value\x7d` for a project entry. -/
def setProjField (p : Project) : ProjField → String → Project
  | .pname, v => { p with name := v }
  | .pdescription, v => { p with description := v }
  | .ptechnologies, v => { p with technologies := v }
  | .plink, v => { p with link := v }

/-- `addProject()`: `[...(prev.projects || []), blank]`. -/
def addProject (r : ResumeData) : ResumeData :=
  { r with projects :=
      Option.some ((projectsOrEmpty r) ++
        [{ name := "", description := "", technologies := "", link := "" }]) }

/-- `updateProject(index, field, value)`:
`(prev.projects || []).map((project, i) => ...)`. -/
def updateProject (r : ResumeData) (index : Nat) (field : ProjField) (value : String) : ResumeData :=
  { r with projects :=
      Option.some (mapIdxGo (fun i p => if i = index then setProjField p field value else p) 0
        (projectsOrEmpty r)) }

/-- `removeProject(index)`: `(prev.projects || []).filter((_, i) => i !== index)`. -/
def removeProject (r : ResumeData) (index : Nat) : ResumeData :=
  { r with projects :=
      Option.some (filterIdxGo (fun i _ => i ≠ index) 0 (projectsOrEmpty r)) }

/-! ### Completion scorer -/

/-- Count of satisfied predicates in `getCompletionPercentage`: the seven
`if (...) completed++` checks, in source order.  A JavaScript string is
truthy exactly when it is non-empty. -/
def countCompleted (r : ResumeData) : Nat :=
  (if r.personalInfo.name ≠ "" then 1 else 0) +
  (if r.personalInfo.email ≠ "" then 1 else 0) +
  (if r.personalInfo.summary ≠ "" then 1 else 0) +
  (if r.skills.length > 0 then 1 else 0) +
  (if r.experience.length > 0 then 1 else 0) +
  (if r.education.length > 0 then 1 else 0) +
  (if (projectsOrEmpty r).length > 0 then 1 else 0)

/-- `Math.round(x)` for non-negative x: floor of x + 1/2 (round half up). -/
def mathRound (q : ℚ) : ℤ := ⌊q + 1 / 2⌋

/-- `getCompletionPercentage()`: `Math.round((completed / total) * 100)`
with `total = 7`.  The double-precision evaluation of
`(completed / 7) * 100` rounds to the same integer as the exact rational
for every `completed` in 0..7, so the rational model is exact. -/
def getCompletionPercentage (r : ResumeData) : ℕ :=
  (mathRound (((countCompleted r : ℚ) / 7) * 100)).toNat

/-- The spec's seven equal-weight boolean predicates, in the spec's order. -/
def specPredicates (r : ResumeData) : List Bool :=
  [ decide (r.personalInfo.name ≠ ""),
    decide (r.personalInfo.email ≠ ""),
    decide (r.personalInfo.summary ≠ ""),
    decide (r.skills ≠ []),
    decide (r.experience ≠ []),
    decide (r.education ≠ []),
    decide (projectsOrEmpty r ≠ []) ]

/-- The spec's `count_true`. -/
def specCountTrue (r : ResumeData) : ℕ :=
  (specPredicates r).countP id

/-- The spec's `round(100 × count_true / 7)` written over naturals:
round-half-up of `a / b` is `(2a + b) / (2b)` in integer division. -/
def specScore (r : ResumeData) : ℕ :=
  (2 * (100 * specCountTrue r) + 7) / (2 * 7)

/-! ### Persistence adapter

`saveToLocalStorage` runs `localStorage.setItem('resumeData',
JSON.stringify(resumeData))`; `loadFromLocalStorage` runs
`JSON.parse(localStorage.getItem('resumeData'))` and installs the parsed
value unchanged.  Serialization is modelled at the level of the JSON
value tree (`JSON.stringify` / `JSON.parse` compose to the identity on
such trees, so the text layer is not re-modelled). -/

/-- A JSON value as produced by serializing `ResumeData`: strings, arrays
and string-keyed objects suffice. -/
inductive Json where
  | str : String → Json
  | arr : List Json → Json
  | obj : List (String × Json) → Json

/-- Property lookup on a parsed JSON object. -/
def jsonLookup (fields : List (String × Json)) (k : String) : Option Json :=
  (fields.find? (fun p => p.1 = k)).map Prod.snd

/-- Read a JSON value as a string. -/
def asStr : Json → Option String
  | .str s => some s
  | _ => none

/-- Read a JSON value as an array. -/
def asArr : Json → Option (List Json)
  | .arr l => some l
  | _ => none

/-- Serialize `personalInfo`: the seven declared keys in declaration
order, then any extra keys the computed member expression added. -/
def encodePersonal (p : PersonalInfo) : Json :=
  .obj ([("name", .str p.name), ("email", .str p.email), ("phone", .str p.phone),
         ("location", .str p.location), ("summary", .str p.summary),
         ("linkedin", .str p.linkedin), ("github", .str p.github)] ++
        p.extra.map (fun kv => (kv.1, Json.str kv.2)))

/-- Serialize one experience entry. -/
def encodeExperience (e : Experience) : Json :=
  .obj [("title", .str e.title), ("company", .str e.company),
        ("duration", .str e.duration), ("description", .str e.description)]

/-- Serialize one education entry. -/
def encodeEducation (e : Education) : Json :=
  .obj [("degree", .str e.degree), ("institution", .str e.institution),
        ("year", .str e.year), ("gpa", .str e.gpa)]

/-- Serialize one project entry. -/
def encodeProject (p : Project) : Json :=
  .obj [("name", .str p.name), ("description", .str p.description),
        ("technologies", .str p.technologies), ("link", .str p.link)]

/-- `JSON.stringify(resumeData)` as a JSON tree.  `JSON.stringify` drops a
key whose value is `undefined`, so an absent `projects` list produces no
`projects` key at all. -/
def encodeResume (r : ResumeData) : Json :=
  .obj ([("personalInfo", encodePersonal r.personalInfo),
         ("experience", .arr (r.experience.map encodeExperience)),
         ("education", .arr (r.education.map encodeEducation)),
         ("skills", .arr (r.skills.map Json.str))] ++
        (match r.projects with
         | none => []
         | some ps => [("projects", .arr (ps.map encodeProject))]))

/-- The seven declared `personalInfo` keys. -/
def personalKeys : List String :=
  ["name", "email", "phone", "location", "summary", "linkedin", "github"]

/-- The string-valued properties of a parsed `personalInfo` object beyond
the seven declared keys. -/
def extraFields (fs : List (String × Json)) : List (String × String) :=
  fs.filterMap (fun p =>
    if p.1 ∈ personalKeys then none
    else (asStr p.2).map (fun s => (p.1, s)))

/-- Read a parsed JSON value back as `personalInfo`. -/
def decodePersonal (j : Json) : Option PersonalInfo :=
  match j with
  | .obj fs =>
    match jsonLookup fs "name" >>= asStr, jsonLookup fs "email" >>= asStr,
          jsonLookup fs "phone" >>= asStr, jsonLookup fs "location" >>= asStr,
          jsonLookup fs "summary" >>= asStr, jsonLookup fs "linkedin" >>= asStr,
          jsonLookup fs "github" >>= asStr with
    | some n, some em, some ph, some lo, some su, some li, some gh =>
      some { name := n, email := em, phone := ph, location := lo, summary := su,
             linkedin := li, github := gh, extra := extraFields fs }
    | _, _, _, _, _, _, _ => none
  | _ => none

/-- Decode every element of a parsed JSON array. -/
def decodeArr (f : Json → Option α) : List Json → Option (List α)
  | [] => some []
  | j :: js =>
    match f j, decodeArr f js with
    | some a, some rest => some (a :: rest)
    | _, _ => none

/-- Read a parsed JSON value back as one experience entry. -/
def decodeExperience (j : Json) : Option Experience :=
  match j with
  | .obj fs =>
    match jsonLookup fs "title" >>= asStr, jsonLookup fs "company" >>= asStr,
          jsonLookup fs "duration" >>= asStr, jsonLookup fs "description" >>= asStr with
    | some t, some c, some d, some de =>
      some { title := t, company := c, duration := d, description := de }
    | _, _, _, _ => none
  | _ => none

/-- Read a parsed JSON value back as one education entry. -/
def decodeEducation (j : Json) : Option Education :=
  match j with
  | .obj fs =>
    match jsonLookup fs "degree" >>= asStr, jsonLookup fs "institution" >>= asStr,
          jsonLookup fs "year" >>= asStr, jsonLookup fs "gpa" >>= asStr with
    | some d, some i, some y, some g =>
      some { degree := d, institution := i, year := y, gpa := g }
    | _, _, _, _ => none
  | _ => none

/-- Read a parsed JSON value back as one project entry. -/
def decodeProject (j : Json) : Option Project :=
  match j with
  | .obj fs =>
    match jsonLookup fs "name" >>= asStr, jsonLookup fs "description" >>= asStr,
          jsonLookup fs "technologies" >>= asStr, jsonLookup fs "link" >>= asStr with
    | some n, some d, some t, some l =>
      some { name := n, description := d, technologies := t, link := l }
    | _, _, _, _ => none
  | _ => none

/-- Read a parsed JSON value back as a `ResumeData` record.  A missing
`projects` key yields `projects = none`: the code performs no
normalization on load, it installs the parsed object as state.  A value
that is not `ResumeData`-shaped yields `none` (the cast would produce a
non-record). -/
def decodeResume (j : Json) : Option ResumeData :=
  match j with
  | .obj fs =>
    (jsonLookup fs "personalInfo" >>= decodePersonal).bind fun pi' =>
      ((jsonLookup fs "experience" >>= asArr) >>= decodeArr decodeExperience).bind fun ex =>
        ((jsonLookup fs "education" >>= asArr) >>= decodeArr decodeEducation).bind fun ed =>
          ((jsonLookup fs "skills" >>= asArr) >>= decodeArr asStr).bind fun sk =>
            match jsonLookup fs "projects" with
            | none =>
              some { personalInfo := pi', experience := ex, education := ed,
                     skills := sk, projects := none }
            | some pj =>
              (asArr pj >>= decodeArr decodeProject).bind fun ps =>
                some { personalInfo := pi', experience := ex, education := ed,
                       skills := sk, projects := some ps }
  | _ => none

/-- `loadFromLocalStorage()`: when the store holds a value under the key,
parse it and install it as the new state unchanged; when the key is
missing, or parsing fails (the `catch` branch), keep the current state. -/
def loadFromLocalStorage (stored : Option Json) (cur : ResumeData) : ResumeData :=
  match stored with
  | none => cur
  | some j =>
    match decodeResume j with
    | some r => r
    | none => cur

/-- A record is well-formed when `personalInfo` carries no keys beyond the
seven declared ones. -/
def wellFormed (r : ResumeData) : Prop :=
  r.personalInfo.extra = []

/-! ### Autosave controller -/

/-- The pieces of component state `saveToLocalStorage` touches, plus the
backing store. -/
structure SaveCtl where
  data : ResumeData
  isSaving : Bool
  lastSaved : Option Nat
  store : Option Json

/-- `saveToLocalStorage()`: set `isSaving`, try the write; on success
record the timestamp and (after the 500 ms cosmetic delay) clear
`isSaving`; on failure (`setItem` throws) emit the error toast, clear
`isSaving`, and change nothing else — no retry timer is created in either
branch.  Result: settled state, emitted notifications, scheduled retry
times. -/
def saveToLocalStorage (writeOk : Bool) (now : Nat) (st : SaveCtl) :
    SaveCtl × List String × List Nat :=
  if writeOk then
    ({ st with store := some (encodeResume st.data), lastSaved := some now,
               isSaving := false }, [], [])
  else
    ({ st with isSaving := false }, ["Failed to save data"], [])

/-! ### Debounced autosave timer

The `useEffect` with dependency `[resumeData]` runs on every change: its
cleanup cancels the previously scheduled timer (if it has not fired) and
the body schedules a save at `change time + 2000`. -/

/-- Run the timer discipline over time-ordered change events.  State is
the pending timer (fire time and the data it would write).  A change at
time `t` first lets a pending timer whose fire time is ≤ `t` fire (its
write happened before the change), otherwise cancels it; then schedules a
new timer at `t + w`.  After the last change, the pending timer fires. -/
def debounceRun (w : Nat) : Option (Nat × α) → List (Nat × α) → List (Nat × α)
  | some p, [] => [p]
  | none, [] => []
  | some (ft, fd), (t, d) :: rest =>
    if ft ≤ t then (ft, fd) :: debounceRun w (some (t + w, d)) rest
    else debounceRun w (some (t + w, d)) rest
  | none, (t, d) :: rest => debounceRun w (some (t + w, d)) rest

/-- The persistence writes produced by a time-ordered list of form-state
changes under the debounced autosave. -/
def debounceWrites (w : Nat) (changes : List (Nat × α)) : List (Nat × α) :=
  debounceRun w none changes

/-- A call sequence over the experience list: the three handlers the
component wires to the Experience section. -/
inductive ExpOp where
  | add : ExpOp
  | update : Nat → ExpField → String → ExpOp
  | remove : Nat → ExpOp
deriving DecidableEq, Repr

/-- Apply one experience operation. -/
def applyExpOp (r : ResumeData) : ExpOp → ResumeData
  | .add => addExperience r
  | .update i f v => updateExperience r i f v
  | .remove i => removeExperience r i

/-- Apply a sequence of experience operations, left to right. -/
def applyExpOps (r : ResumeData) : List ExpOp → ResumeData
  | [] => r
  | op :: rest => applyExpOps (applyExpOp r op) rest

/-- Number of addExperience calls in a sequence. -/
def countAdds : List ExpOp → Nat
  | [] => 0
  | .add :: rest => countAdds rest + 1
  | _ :: rest => countAdds rest

/-- Number of removeExperience calls in a sequence. -/
def countRemoves : List ExpOp → Nat
  | [] => 0
  | .remove _ :: rest => countRemoves rest + 1
  | _ :: rest => countRemoves rest

/-- Every removeExperience call in the sequence targets an index that is
in range at the moment of the call. -/
def removesInRange (r : ResumeData) : List ExpOp → Bool
  | [] => true
  | op :: rest =>
    (match op with
     | .remove i => decide (i < r.experience.length)
     | _ => true) && removesInRange (applyExpOp r op) rest

/-- The empty record with the optional projects list absent, as produced
by loading a stored blob that lacks the projects key. -/
def noProjectsResume : ResumeData :=
  { emptyResume with projects := none }

/-- A record with name, email, summary, one skill, one experience, one
education and one project. -/
def fullSample : ResumeData :=
  { personalInfo :=
      { name := "Ada Lovelace", email := "ada@example.com", phone := ""
        location := "", summary := "Engineer", linkedin := "", github := ""
        extra := [] }
    experience := [{ title := "Dev", company := "Acme", duration := "2020", description := "work" }]
    education := [{ degree := "BSc", institution := "Uni", year := "2018", gpa := "4.0" }]
    skills := ["Python"]
    projects := some [{ name := "App", description := "d", technologies := "ts", link := "u" }] }

/-! ## Theorems -/

theorem countCompleted_le_seven (r : ResumeData) : countCompleted r ≤ 7 := by
  unfold countCompleted
  split <;> split <;> split <;> split <;> split <;> split <;> split <;> simp

theorem countCompleted_eq_specCountTrue (r : ResumeData) :
    countCompleted r = specCountTrue r := by
  unfold countCompleted specCountTrue specPredicates
  by_cases h1 : r.personalInfo.name = "" <;>
    by_cases h2 : r.personalInfo.email = "" <;>
      by_cases h3 : r.personalInfo.summary = "" <;>
        by_cases h4 : r.skills = [] <;>
          by_cases h5 : r.experience = [] <;>
            by_cases h6 : r.education = [] <;>
              by_cases h7 : projectsOrEmpty r = [] <;>
                simp [h1, h2, h3, h4, h5, h6, h7, List.length_pos, List.countP_cons]

theorem mathRound_eq (q : ℚ) (z : ℤ) (h1 : (z : ℚ) ≤ q + 1 / 2)
    (h2 : q + 1 / 2 < z + 1) : mathRound q = z := by
  unfold mathRound
  rw [Int.floor_eq_iff]
  exact ⟨h1, h2⟩

theorem mathRound_div7 (c : ℕ) (hc : c ≤ 7) :
    (mathRound ((c : ℚ) / 7 * 100)).toNat = (2 * (100 * c) + 7) / (2 * 7) := by
  interval_cases c
  · rw [mathRound_eq _ 0 (by norm_num) (by norm_num)]; decide
  · rw [mathRound_eq _ 14 (by norm_num) (by norm_num)]; decide
  · rw [mathRound_eq _ 29 (by norm_num) (by norm_num)]; decide
  · rw [mathRound_eq _ 43 (by norm_num) (by norm_num)]; decide
  · rw [mathRound_eq _ 57 (by norm_num) (by norm_num)]; decide
  · rw [mathRound_eq _ 71 (by norm_num) (by norm_num)]; decide
  · rw [mathRound_eq _ 86 (by norm_num) (by norm_num)]; decide
  · rw [mathRound_eq _ 100 (by norm_num) (by norm_num)]; decide

theorem getCompletionPercentage_eq_specScore (r : ResumeData) :
    getCompletionPercentage r = specScore r := by
  unfold getCompletionPercentage specScore
  rw [countCompleted_eq_specCountTrue]
  exact mathRound_div7 (specCountTrue r)
    (by rw [← countCompleted_eq_specCountTrue]; exact countCompleted_le_seven r)

/-- C1: the completion scorer is a pure function of the record evaluating
the seven equal-weight emptiness predicates and returning
round(100 · count_true / 7); the empty record scores 0 and a record with
name, email, summary, one skill, one experience, one education and one
project scores 100. -/
theorem c1_completion_scorer (r : ResumeData) :
    getCompletionPercentage r = specScore r ∧
    getCompletionPercentage emptyResume = 0 ∧
    getCompletionPercentage fullSample = 100 := by
  refine ⟨getCompletionPercentage_eq_specScore r, ?_, ?_⟩
  · rw [getCompletionPercentage_eq_specScore]; decide
  · rw [getCompletionPercentage_eq_specScore]; decide

/-- C2: every form-state change cancels a still-pending save timer and
schedules a fresh one at change time + window, so changes at t = 0, 500,
1000 with window 2000 produce exactly one write, at t = 3000, carrying
the state of the t = 1000 change. -/
theorem c2_autosave_debounce (α : Type) :
    (∀ (w ft t : Nat) (fd d : α) (rest : List (Nat × α)), t < ft →
        debounceRun w (some (ft, fd)) ((t, d) :: rest) =
          debounceRun w (some (t + w, d)) rest) ∧
    (∀ a b c : α, debounceWrites 2000 [(0, a), (500, b), (1000, c)] = [(3000, c)]) := by
  constructor
  · intro w ft t fd d rest h
    simp [debounceRun, Nat.not_le.mpr h]
  · intro a b c
    simp [debounceWrites, debounceRun]

theorem c2_autosave_debounce_witness :
    debounceRun 2000 (some (2000, (0 : Nat))) [(500, 1)] =
      debounceRun 2000 (some (2500, 1)) [] ∧
    debounceWrites 2000 [(0, (10 : Nat)), (500, 20), (1000, 30)] = [(3000, 30)] :=
  ⟨(c2_autosave_debounce Nat).1 2000 2000 500 0 1 [] (by decide),
   (c2_autosave_debounce Nat).2 10 20 30⟩

/-- C3: addSkill trims its argument, appends the trimmed string when it is
non-empty and not already present (exact case-sensitive match) and
otherwise leaves the record unchanged; it is idempotent, a double call
from a list not containing the string leaves exactly one copy, and
addSkill with "" or "   " is a no-op. -/
theorem c3_addSkill_spec (r : ResumeData) (s : String) :
    (jsTrim s ≠ "" ∧ ¬ r.skills.contains (jsTrim s) →
        addSkill r s = { r with skills := r.skills ++ [jsTrim s] }) ∧
    (¬ (jsTrim s ≠ "" ∧ ¬ r.skills.contains (jsTrim s)) → addSkill r s = r) ∧
    addSkill (addSkill r s) s = addSkill r s ∧
    (jsTrim s ≠ "" → r.skills.count (jsTrim s) = 0 →
        (addSkill (addSkill r s) s).skills.count (jsTrim s) = 1) ∧
    addSkill r "" = r ∧
    addSkill r "   " = r := by
  have hpos : jsTrim s ≠ "" ∧ ¬ r.skills.contains (jsTrim s) →
      addSkill r s = { r with skills := r.skills ++ [jsTrim s] } := by
    intro h; unfold addSkill; rw [if_pos h]
  have hneg : ¬ (jsTrim s ≠ "" ∧ ¬ r.skills.contains (jsTrim s)) →
      addSkill r s = r := by
    intro h; unfold addSkill; rw [if_neg h]
  have hc2 : (r.skills ++ [jsTrim s]).contains (jsTrim s) = true := by simp
  refine ⟨hpos, hneg, ?_, ?_, ?_, ?_⟩
  · by_cases h : jsTrim s ≠ "" ∧ ¬ r.skills.contains (jsTrim s)
    · rw [hpos h]
      unfold addSkill
      rw [if_neg (fun hcontra => hcontra.2 hc2)]
    · rw [hneg h]; exact hneg h
  · intro hne hcount
    have hnc : ¬ r.skills.contains (jsTrim s) = true := by
      intro hcon
      rw [List.count_eq_zero] at hcount
      exact hcount (by simpa using hcon)
    rw [hpos ⟨hne, hnc⟩]
    have h2 : addSkill { r with skills := r.skills ++ [jsTrim s] } s =
        { r with skills := r.skills ++ [jsTrim s] } := by
      unfold addSkill
      rw [if_neg (fun hcontra => hcontra.2 hc2)]
    rw [h2]
    simp [List.count_append, hcount]
  · unfold addSkill
    rw [if_neg (fun h => h.1 (by decide))]
  · unfold addSkill
    rw [if_neg (fun h => h.1 (by decide))]

theorem c3_addSkill_witness :
    addSkill emptyResume "Python" = { emptyResume with skills := ["Python"] } ∧
    (addSkill (addSkill emptyResume "Python") "Python").skills.count "Python" = 1 ∧
    addSkill emptyResume "" = emptyResume ∧
    addSkill emptyResume "   " = emptyResume := by
  have h := c3_addSkill_spec emptyResume "Python"
  have hj : jsTrim "Python" = "Python" := by decide
  refine ⟨?_, ?_, (c3_addSkill_spec emptyResume "").2.2.2.2.1,
          (c3_addSkill_spec emptyResume "   ").2.2.2.2.2⟩
  · rw [h.1 (by decide)]; decide
  · have h2 := h.2.2.2.1 (by decide) (by decide)
    rwa [hj] at h2

/-- C8: when the storage write throws, saveToLocalStorage emits exactly
the transient error notification, ends with isSaving = false (IDLE),
schedules no retry, leaves the save timestamp unset/unchanged, and leaves
both the in-memory record and the backing store untouched. -/
theorem mapIdxGo_length (f : Nat → α → β) (n : Nat) (xs : List α) :
    (mapIdxGo f n xs).length = xs.length := by
  induction xs generalizing n with
  | nil => rfl
  | cons x xs ih => simp [mapIdxGo, ih]

theorem mapIdxGo_id_of_ge (g : α → α) (k n : Nat) (xs : List α)
    (h : n + xs.length ≤ k) :
    mapIdxGo (fun i x => if i = k then g x else x) n xs = xs := by
  induction xs generalizing n with
  | nil => rfl
  | cons x xs ih =>
    have hn : n ≠ k := by simp at h; omega
    simp only [mapIdxGo, if_neg hn]
    rw [ih]
    simp at h ⊢
    omega

theorem filterIdxGo_ne_of_lt (k n : Nat) (xs : List α) (h : k < n) :
    filterIdxGo (fun i _ => i ≠ k) n xs = xs := by
  induction xs generalizing n with
  | nil => rfl
  | cons x xs ih =>
    simp only [filterIdxGo]
    split
    · rw [ih (n + 1) (by omega)]
    · rename_i hcond
      exfalso
      simp at hcond
      omega

theorem filterIdxGo_ne_of_ge (k n : Nat) (xs : List α) (h : n + xs.length ≤ k) :
    filterIdxGo (fun i _ => i ≠ k) n xs = xs := by
  induction xs generalizing n with
  | nil => rfl
  | cons x xs ih =>
    simp only [List.length_cons] at h
    simp only [filterIdxGo]
    split
    · rw [ih (n + 1) (by omega)]
    · rename_i hcond
      exfalso
      simp at hcond
      omega

theorem filterIdxGo_ne_length (k n : Nat) (xs : List α) :
    (filterIdxGo (fun i _ => i ≠ k) n xs).length =
      if n ≤ k ∧ k < n + xs.length then xs.length - 1 else xs.length := by
  induction xs generalizing n with
  | nil =>
    simp only [filterIdxGo, List.length_nil]
    split <;> rfl
  | cons x xs ih =>
    simp only [filterIdxGo, List.length_cons]
    split
    · rename_i hcond
      have hnk : n ≠ k := by simpa using hcond
      simp only [List.length_cons, ih (n + 1)]
      by_cases hk : n + 1 ≤ k ∧ k < n + 1 + xs.length
      · rw [if_pos hk, if_pos (by omega)]
        omega
      · rw [if_neg hk, if_neg (by omega)]
    · rename_i hcond
      have hnk : n = k := by simpa using hcond
      rw [← hnk]
      rw [filterIdxGo_ne_of_lt n (n + 1) xs (by omega)]
      rw [if_pos ⟨Nat.le_refl n, by omega⟩]
      simp

theorem mapIdxGo_comp (f g : Nat → α → α) (n : Nat) (xs : List α) :
    mapIdxGo f n (mapIdxGo g n xs) = mapIdxGo (fun i x => f i (g i x)) n xs := by
  induction xs generalizing n with
  | nil => rfl
  | cons x xs ih => simp [mapIdxGo, ih]

theorem mapIdxGo_congr (f g : Nat → α → β) (n : Nat) (xs : List α)
    (h : ∀ i x, f i x = g i x) : mapIdxGo f n xs = mapIdxGo g n xs := by
  induction xs generalizing n with
  | nil => rfl
  | cons x xs ih => simp [mapIdxGo, ih, h]

theorem mapIdxGo_getElem? (f : Nat → α → α) (n i : Nat) (xs : List α) :
    (mapIdxGo f n xs)[i]? = (xs[i]?).map (f (n + i)) := by
  induction xs generalizing n i with
  | nil => simp [mapIdxGo]
  | cons x xs ih =>
    cases i with
    | zero => simp [mapIdxGo]
    | succ j =>
      simp only [mapIdxGo, List.getElem?_cons_succ, ih (n + 1) j]
      rw [show n + 1 + j = n + (j + 1) from by omega]

theorem addExperience_length (r : ResumeData) :
    (addExperience r).experience.length = r.experience.length + 1 := by
  simp [addExperience]

theorem updateExperience_length (r : ResumeData) (i : Nat) (f : ExpField) (v : String) :
    (updateExperience r i f v).experience.length = r.experience.length := by
  simp [updateExperience, mapIdxGo_length]

theorem removeExperience_length (r : ResumeData) (i : Nat) (h : i < r.experience.length) :
    (removeExperience r i).experience.length = r.experience.length - 1 := by
  simp only [removeExperience]
  rw [filterIdxGo_ne_length]
  rw [if_pos ⟨Nat.zero_le i, by omega⟩]

/-- C4 (amended): starting from any record, the resulting experience list
length is the starting length plus #adds minus #removes provided each
removeExperience call's index is in range when the call happens; updates
overwrite (a later update to the same index and field wins) and an
updated entry reads back the updated field value. -/
theorem c4_experience_ops (r : ResumeData) (ops : List ExpOp) :
    (removesInRange r ops = true →
        ((applyExpOps r ops).experience.length : ℤ) =
          r.experience.length + countAdds ops - countRemoves ops) ∧
    (∀ (i : Nat) (f : ExpField) (v₁ v₂ : String),
        updateExperience (updateExperience r i f v₁) i f v₂ =
          updateExperience r i f v₂) ∧
    (∀ (i : Nat) (f : ExpField) (v : String) (e : Experience),
        r.experience[i]? = some e →
          (updateExperience r i f v).experience[i]? = some (setExpField e f v)) ∧
    (∀ (e : Experience) (f : ExpField) (v : String),
        getExpField (setExpField e f v) f = v) := by
  refine ⟨?_, ?_, ?_, ?_⟩
  · induction ops generalizing r with
    | nil => intro _; simp [applyExpOps, countAdds, countRemoves]
    | cons op rest ih =>
      intro h
      simp only [removesInRange, Bool.and_eq_true] at h
      obtain ⟨hop, hrest⟩ := h
      cases op with
      | add =>
        have := ih (addExperience r) hrest
        simp only [applyExpOps, applyExpOp] at *
        rw [this, addExperience_length]
        simp [countAdds, countRemoves]
        ring
      | update i f v =>
        have := ih (updateExperience r i f v) hrest
        simp only [applyExpOps, applyExpOp] at *
        rw [this, updateExperience_length]
        simp [countAdds, countRemoves]
      | remove i =>
        have hi : i < r.experience.length := by simpa using hop
        have := ih (removeExperience r i) hrest
        simp only [applyExpOps, applyExpOp] at *
        rw [this, removeExperience_length r i hi]
        simp only [countAdds, countRemoves]
        have h1 : 1 ≤ r.experience.length := by omega
        push_cast [Nat.cast_sub h1]
        ring
  · intro i f v₁ v₂
    simp only [updateExperience]
    congr 1
    rw [mapIdxGo_comp]
    apply mapIdxGo_congr
    intro j x
    by_cases hj : j = i
    · simp only [hj, if_pos rfl]
      cases f <;> rfl
    · simp [hj]
  · intro i f v e he
    simp only [updateExperience]
    rw [mapIdxGo_getElem?, he]
    simp
  · intro e f v
    cases f <;> rfl

theorem c4_experience_ops_witness :
    ((applyExpOps emptyResume
        [ExpOp.add, ExpOp.update 0 ExpField.title "x", ExpOp.remove 0]).experience.length : ℤ) =
      emptyResume.experience.length +
        countAdds [ExpOp.add, ExpOp.update 0 ExpField.title "x", ExpOp.remove 0] -
        countRemoves [ExpOp.add, ExpOp.update 0 ExpField.title "x", ExpOp.remove 0] ∧
    (updateExperience fullSample 0 ExpField.title "a").experience[0]? =
      some (setExpField { title := "Dev", company := "Acme", duration := "2020",
                          description := "work" } ExpField.title "a") :=
  ⟨(c4_experience_ops emptyResume
      [ExpOp.add, ExpOp.update 0 ExpField.title "x", ExpOp.remove 0]).1 (by decide),
   (c4_experience_ops fullSample []).2.2.1 0 ExpField.title "a"
      { title := "Dev", company := "Acme", duration := "2020", description := "work" }
      (by decide)⟩

/-- C4: the claim as stated fails: a removeExperience on an out-of-range
index removes nothing, and the stated length law also ignores the
starting length — from the empty record, the single call removeExperience 0
leaves length 0 while #adds − #removes = −1. -/
theorem c4_counterexample :
    ¬ (((applyExpOps emptyResume [ExpOp.remove 0]).experience.length : ℤ) =
        countAdds [ExpOp.remove 0] - countRemoves [ExpOp.remove 0]) := by
  decide

/-- C7 (amended): update and remove with an out-of-range index never throw
and are exact no-ops on the experience, education and skills lists; the
projects operations are no-ops up to normalization — they rewrite the
projects field to `some (projectsOrEmpty r)`, which equals `r.projects`
when the list is present and replaces an absent list with the present
empty list. -/
theorem c7_out_of_range_noop (r : ResumeData) (i : Nat) (fe : ExpField)
    (fd : EduField) (fp : ProjField) (v : String) :
    (r.experience.length ≤ i →
        updateExperience r i fe v = r ∧ removeExperience r i = r) ∧
    (r.education.length ≤ i →
        updateEducation r i fd v = r ∧ removeEducation r i = r) ∧
    (r.skills.length ≤ i → removeSkill r i = r) ∧
    ((projectsOrEmpty r).length ≤ i →
        updateProject r i fp v = { r with projects := some (projectsOrEmpty r) } ∧
        removeProject r i = { r with projects := some (projectsOrEmpty r) }) := by
  refine ⟨fun h => ⟨?_, ?_⟩, fun h => ⟨?_, ?_⟩, fun h => ?_, fun h => ⟨?_, ?_⟩⟩
  · unfold updateExperience
    rw [mapIdxGo_id_of_ge _ i 0 _ (by omega)]
  · unfold removeExperience
    rw [filterIdxGo_ne_of_ge i 0 _ (by omega)]
  · unfold updateEducation
    rw [mapIdxGo_id_of_ge _ i 0 _ (by omega)]
  · unfold removeEducation
    rw [filterIdxGo_ne_of_ge i 0 _ (by omega)]
  · unfold removeSkill
    rw [filterIdxGo_ne_of_ge i 0 _ (by omega)]
  · unfold updateProject
    rw [mapIdxGo_id_of_ge _ i 0 _ (by omega)]
  · unfold removeProject
    rw [filterIdxGo_ne_of_ge i 0 _ (by omega)]

theorem c7_out_of_range_noop_witness :
    updateExperience fullSample 5 ExpField.title "v" = fullSample ∧
    removeExperience fullSample 5 = fullSample ∧
    removeSkill fullSample 5 = fullSample ∧
    updateProject noProjectsResume 0 ProjField.pname "v" =
      { noProjectsResume with projects := some (projectsOrEmpty noProjectsResume) } := by
  have h1 := c7_out_of_range_noop fullSample 5 ExpField.title EduField.degree ProjField.pname "v"
  have h2 := c7_out_of_range_noop noProjectsResume 0 ExpField.title EduField.degree ProjField.pname "v"
  exact ⟨(h1.1 (by decide)).1, (h1.1 (by decide)).2, h1.2.2.1 (by decide),
         (h2.2.2.2 (by decide)).1⟩

/-- C7: the claim as stated fails on the projects operations when the
projects list is absent: an out-of-range updateProject does not leave the
record unchanged, it materializes `projects: []`. -/
theorem c7_counterexample :
    updateProject noProjectsResume 0 ProjField.pname "x" ≠ noProjectsResume := by
  decide

theorem decodeExperience_encode (e : Experience) :
    decodeExperience (encodeExperience e) = some e := rfl

theorem decodeEducation_encode (e : Education) :
    decodeEducation (encodeEducation e) = some e := rfl

theorem decodeProject_encode (p : Project) :
    decodeProject (encodeProject p) = some p := rfl

theorem decodeArr_map (f : Json → Option α) (g : α → Json)
    (h : ∀ a, f (g a) = some a) (xs : List α) :
    decodeArr f (xs.map g) = some xs := by
  induction xs with
  | nil => rfl
  | cons x xs ih => simp [decodeArr, h x, ih]

theorem decodeResume_encode_noneCase (n em ph lo su li gh : String)
    (ex : List Experience) (ed : List Education) (sk : List String) :
    decodeResume (encodeResume ⟨⟨n, em, ph, lo, su, li, gh, []⟩, ex, ed, sk, none⟩) =
      some ⟨⟨n, em, ph, lo, su, li, gh, []⟩, ex, ed, sk, none⟩ := by
  show (decodeArr decodeExperience (List.map encodeExperience ex)).bind
      (fun a => (decodeArr decodeEducation (List.map encodeEducation ed)).bind
        (fun b => (decodeArr asStr (List.map Json.str sk)).bind
          (fun c => some (ResumeData.mk
            (PersonalInfo.mk n em ph lo su li gh []) a b c none)))) =
      some (ResumeData.mk (PersonalInfo.mk n em ph lo su li gh []) ex ed sk none)
  rw [decodeArr_map decodeExperience encodeExperience decodeExperience_encode,
      decodeArr_map decodeEducation encodeEducation decodeEducation_encode,
      decodeArr_map asStr Json.str (fun s => rfl)]
  rfl

theorem decodeResume_encode_someCase (n em ph lo su li gh : String)
    (ex : List Experience) (ed : List Education) (sk : List String)
    (ps : List Project) :
    decodeResume (encodeResume ⟨⟨n, em, ph, lo, su, li, gh, []⟩, ex, ed, sk, some ps⟩) =
      some ⟨⟨n, em, ph, lo, su, li, gh, []⟩, ex, ed, sk, some ps⟩ := by
  show (decodeArr decodeExperience (List.map encodeExperience ex)).bind
      (fun a => (decodeArr decodeEducation (List.map encodeEducation ed)).bind
        (fun b => (decodeArr asStr (List.map Json.str sk)).bind
          (fun c => (decodeArr decodeProject (List.map encodeProject ps)).bind
            (fun d => some (ResumeData.mk
              (PersonalInfo.mk n em ph lo su li gh []) a b c (some d)))))) =
      some (ResumeData.mk (PersonalInfo.mk n em ph lo su li gh []) ex ed sk (some ps))
  rw [decodeArr_map decodeExperience encodeExperience decodeExperience_encode,
      decodeArr_map decodeEducation encodeEducation decodeEducation_encode,
      decodeArr_map asStr Json.str (fun s => rfl),
      decodeArr_map decodeProject encodeProject decodeProject_encode]
  rfl

/-- C6: for every well-formed record held by the controller, a successful
save writes its serialization to the store, and loading that store
reproduces a record structurally equal to the original
(load(save(record)) = record). -/
theorem c6_save_load_roundtrip (st : SaveCtl) (now : Nat) (cur : ResumeData)
    (h : wellFormed st.data) :
    loadFromLocalStorage ((saveToLocalStorage true now st).1.store) cur = st.data := by
  have hstore : (saveToLocalStorage true now st).1.store = some (encodeResume st.data) := by
    simp [saveToLocalStorage]
  rw [hstore]
  revert h
  generalize st.data = d
  intro h
  obtain ⟨⟨n, em, ph, lo, su, li, gh, pex⟩, ex, ed, sk, pj⟩ := d
  have hex : pex = [] := h
  subst hex
  cases pj with
  | none => simp [loadFromLocalStorage, decodeResume_encode_noneCase]
  | some ps => simp [loadFromLocalStorage, decodeResume_encode_someCase]

theorem c6_save_load_roundtrip_witness :
    loadFromLocalStorage
        ((saveToLocalStorage true 0
            { data := fullSample, isSaving := false, lastSaved := none,
              store := none }).1.store) emptyResume = fullSample :=
  c6_save_load_roundtrip
    { data := fullSample, isSaving := false, lastSaved := none, store := none }
    0 emptyResume rfl

/-- C5: the claim as stated fails: loading a stored blob that lacks the
projects key (the serialization of a record whose projects list is
absent) yields a record whose projects field is still absent — it is not
normalized to the empty sequence at the read boundary. -/
theorem c5_counterexample :
    (loadFromLocalStorage (some (encodeResume noProjectsResume)) emptyResume).projects ≠
      some [] := by
  decide

/-- C5 (amended): load installs the parsed record without normalization —
a blob without a projects key loads to a record with the projects list
still absent; instead every internal operation guards the access with
(projects || []), so an absent list behaves exactly like a present empty
list under the project operations and the completion scorer. -/
theorem c5_load_no_normalization (r : ResumeData) (h : r.projects = none) :
    (loadFromLocalStorage (some (encodeResume noProjectsResume)) emptyResume).projects
        = none ∧
    addProject r = addProject { r with projects := some [] } ∧
    (∀ (i : Nat) (f : ProjField) (v : String),
        updateProject r i f v = updateProject { r with projects := some [] } i f v) ∧
    (∀ i : Nat, removeProject r i = removeProject { r with projects := some [] } i) ∧
    getCompletionPercentage r = getCompletionPercentage { r with projects := some [] } := by
  refine ⟨by decide, ?_, ?_, ?_, ?_⟩
  · simp [addProject, projectsOrEmpty, h]
  · intro i f v
    simp [updateProject, projectsOrEmpty, h]
  · intro i
    simp [removeProject, projectsOrEmpty, h]
  · simp [getCompletionPercentage, countCompleted, projectsOrEmpty, h]

theorem c5_load_no_normalization_witness :
    (loadFromLocalStorage (some (encodeResume noProjectsResume)) emptyResume).projects
        = none ∧
    getCompletionPercentage noProjectsResume =
      getCompletionPercentage { noProjectsResume with projects := some [] } :=
  ⟨(c5_load_no_normalization noProjectsResume rfl).1,
   (c5_load_no_normalization noProjectsResume rfl).2.2.2.2⟩

/-- C9 (amended): for each of the seven declared personalInfo field names,
handlePersonalInfoChange replaces exactly that field, leaving the rest of
the record — including the set of extra keys — unchanged, so the
fixed seven-field shape is preserved; the component's UI only ever passes
these seven names.  A field name outside the seven is not rejected: the
computed member expression adds it as a new key (see the
counterexample). -/
theorem c9_setPersonalField_shape (r : ResumeData) (v : String) :
    handlePersonalInfoChange r "name" v =
      { r with personalInfo := { r.personalInfo with name := v } } ∧
    handlePersonalInfoChange r "email" v =
      { r with personalInfo := { r.personalInfo with email := v } } ∧
    handlePersonalInfoChange r "phone" v =
      { r with personalInfo := { r.personalInfo with phone := v } } ∧
    handlePersonalInfoChange r "location" v =
      { r with personalInfo := { r.personalInfo with location := v } } ∧
    handlePersonalInfoChange r "summary" v =
      { r with personalInfo := { r.personalInfo with summary := v } } ∧
    handlePersonalInfoChange r "linkedin" v =
      { r with personalInfo := { r.personalInfo with linkedin := v } } ∧
    handlePersonalInfoChange r "github" v =
      { r with personalInfo := { r.personalInfo with github := v } } ∧
    (∀ field : String, field ∈ personalKeys →
        (handlePersonalInfoChange r field v).personalInfo.extra =
          r.personalInfo.extra) := by
  refine ⟨rfl, rfl, rfl, rfl, rfl, rfl, rfl, ?_⟩
  intro field hf
  simp only [personalKeys, List.mem_cons, List.not_mem_nil, or_false] at hf
  rcases hf with rfl | rfl | rfl | rfl | rfl | rfl | rfl <;> rfl

theorem c9_setPersonalField_shape_witness :
    handlePersonalInfoChange emptyResume "name" "Ada" =
      { emptyResume with personalInfo := { emptyResume.personalInfo with name := "Ada" } } ∧
    (handlePersonalInfoChange emptyResume "phone" "1").personalInfo.extra =
      emptyResume.personalInfo.extra :=
  ⟨(c9_setPersonalField_shape emptyResume "Ada").1,
   (c9_setPersonalField_shape emptyResume "1").2.2.2.2.2.2.2 "phone" (by decide)⟩

/-- C9: the claim as stated fails: handlePersonalInfoChange with a field
name outside the seven declared ones adds that key to personalInfo
instead of replacing a named field, so personalInfo no longer consists of
exactly the seven fields. -/
theorem c9_counterexample :
    (handlePersonalInfoChange emptyResume "nickname" "x").personalInfo.extra ≠ [] := by
  decide

theorem updateEducation_length (r : ResumeData) (i : Nat) (f : EduField) (v : String) :
    (updateEducation r i f v).education.length = r.education.length := by
  simp [updateEducation, mapIdxGo_length]

theorem countCompleted_congr (r₁ r₂ : ResumeData)
    (h1 : r₁.personalInfo.name = "" ↔ r₂.personalInfo.name = "")
    (h2 : r₁.personalInfo.email = "" ↔ r₂.personalInfo.email = "")
    (h3 : r₁.personalInfo.summary = "" ↔ r₂.personalInfo.summary = "")
    (h4 : r₁.skills = [] ↔ r₂.skills = [])
    (h5 : r₁.experience = [] ↔ r₂.experience = [])
    (h6 : r₁.education = [] ↔ r₂.education = [])
    (h7 : projectsOrEmpty r₁ = [] ↔ projectsOrEmpty r₂ = []) :
    countCompleted r₁ = countCompleted r₂ := by
  unfold countCompleted
  have l4 : r₁.skills.length > 0 ↔ r₂.skills.length > 0 := by
    simp only [gt_iff_lt, List.length_pos]
    exact not_congr h4
  have l5 : r₁.experience.length > 0 ↔ r₂.experience.length > 0 := by
    simp only [gt_iff_lt, List.length_pos]
    exact not_congr h5
  have l6 : r₁.education.length > 0 ↔ r₂.education.length > 0 := by
    simp only [gt_iff_lt, List.length_pos]
    exact not_congr h6
  have l7 : (projectsOrEmpty r₁).length > 0 ↔ (projectsOrEmpty r₂).length > 0 := by
    simp only [gt_iff_lt, List.length_pos]
    exact not_congr h7
  rw [if_congr (not_congr h1) rfl rfl, if_congr (not_congr h2) rfl rfl,
      if_congr (not_congr h3) rfl rfl, if_congr l4 rfl rfl,
      if_congr l5 rfl rfl, if_congr l6 rfl rfl, if_congr l7 rfl rfl]

/-- C10: the completion percentage depends only on the emptiness of
personalInfo.name, .email and .summary and of the four lists: any two
records agreeing on those seven emptiness predicates score equally; in
particular editing phone, location, linkedin or github, or rewriting a
field of an existing experience, education or project entry, never
changes the score. -/
theorem c10_score_noninterference (r₁ r₂ : ResumeData)
    (h1 : r₁.personalInfo.name = "" ↔ r₂.personalInfo.name = "")
    (h2 : r₁.personalInfo.email = "" ↔ r₂.personalInfo.email = "")
    (h3 : r₁.personalInfo.summary = "" ↔ r₂.personalInfo.summary = "")
    (h4 : r₁.skills = [] ↔ r₂.skills = [])
    (h5 : r₁.experience = [] ↔ r₂.experience = [])
    (h6 : r₁.education = [] ↔ r₂.education = [])
    (h7 : projectsOrEmpty r₁ = [] ↔ projectsOrEmpty r₂ = []) :
    getCompletionPercentage r₁ = getCompletionPercentage r₂ ∧
    (∀ v : String,
        getCompletionPercentage (handlePersonalInfoChange r₁ "phone" v) =
            getCompletionPercentage r₁ ∧
        getCompletionPercentage (handlePersonalInfoChange r₁ "location" v) =
            getCompletionPercentage r₁ ∧
        getCompletionPercentage (handlePersonalInfoChange r₁ "linkedin" v) =
            getCompletionPercentage r₁ ∧
        getCompletionPercentage (handlePersonalInfoChange r₁ "github" v) =
            getCompletionPercentage r₁) ∧
    (∀ (i : Nat) (f : ExpField) (v : String),
        getCompletionPercentage (updateExperience r₁ i f v) =
          getCompletionPercentage r₁) ∧
    (∀ (i : Nat) (f : EduField) (v : String),
        getCompletionPercentage (updateEducation r₁ i f v) =
          getCompletionPercentage r₁) ∧
    (∀ (i : Nat) (f : ProjField) (v : String),
        getCompletionPercentage (updateProject r₁ i f v) =
          getCompletionPercentage r₁) := by
  have score_congr : ∀ a b : ResumeData, countCompleted a = countCompleted b →
      getCompletionPercentage a = getCompletionPercentage b := by
    intro a b hab
    unfold getCompletionPercentage
    rw [hab]
  refine ⟨score_congr r₁ r₂ (countCompleted_congr r₁ r₂ h1 h2 h3 h4 h5 h6 h7),
          ?_, ?_, ?_, ?_⟩
  · intro v
    exact ⟨score_congr _ _ (countCompleted_congr _ _ Iff.rfl Iff.rfl Iff.rfl
            Iff.rfl Iff.rfl Iff.rfl Iff.rfl),
           score_congr _ _ (countCompleted_congr _ _ Iff.rfl Iff.rfl Iff.rfl
            Iff.rfl Iff.rfl Iff.rfl Iff.rfl),
           score_congr _ _ (countCompleted_congr _ _ Iff.rfl Iff.rfl Iff.rfl
            Iff.rfl Iff.rfl Iff.rfl Iff.rfl),
           score_congr _ _ (countCompleted_congr _ _ Iff.rfl Iff.rfl Iff.rfl
            Iff.rfl Iff.rfl Iff.rfl Iff.rfl)⟩
  · intro i f v
    apply score_congr
    refine countCompleted_congr (updateExperience r₁ i f v) r₁ Iff.rfl Iff.rfl Iff.rfl
      Iff.rfl ?_ Iff.rfl Iff.rfl
    rw [← List.length_eq_zero, ← List.length_eq_zero, updateExperience_length]
  · intro i f v
    apply score_congr
    refine countCompleted_congr (updateEducation r₁ i f v) r₁ Iff.rfl Iff.rfl Iff.rfl
      Iff.rfl Iff.rfl ?_ Iff.rfl
    rw [← List.length_eq_zero, ← List.length_eq_zero, updateEducation_length]
  · intro i f v
    apply score_congr
    refine countCompleted_congr (updateProject r₁ i f v) r₁ Iff.rfl Iff.rfl Iff.rfl
      Iff.rfl Iff.rfl Iff.rfl ?_
    have hpe : projectsOrEmpty (updateProject r₁ i f v) =
        mapIdxGo (fun j p => if j = i then setProjField p f v else p) 0
          (projectsOrEmpty r₁) := rfl
    rw [hpe, ← List.length_eq_zero, ← List.length_eq_zero, mapIdxGo_length]

theorem c10_score_noninterference_witness :
    getCompletionPercentage (handlePersonalInfoChange emptyResume "phone" "555") =
      getCompletionPercentage emptyResume :=
  (c10_score_noninterference (handlePersonalInfoChange emptyResume "phone" "555")
      emptyResume (by decide) (by decide) (by decide) (by decide) (by decide)
      (by decide) (by decide)).1

theorem c8_save_failure (st : SaveCtl) (now : Nat) :
    (saveToLocalStorage false now st).2.1 = ["Failed to save data"] ∧
    (saveToLocalStorage false now st).1.isSaving = false ∧
    (saveToLocalStorage false now st).2.2 = [] ∧
    (saveToLocalStorage false now st).1.lastSaved = st.lastSaved ∧
    (saveToLocalStorage false now st).1.data = st.data ∧
    (saveToLocalStorage false now st).1.store = st.store := by
  simp [saveToLocalStorage]

end ResumeBuilder

